import Mathlib

/-!
Shallow embedding of the two replication notebooks (Bruhin-Fehr-Schunk 2019
discrete-choice model and Augenblick-Rabin 2019 structural effort model),
together with theorems settling the specification claims about them.
Vectorized numpy arrays are embedded as lists of per-observation records
over the real numbers; elementwise numpy operations become List.map and
List.zipWith; matrix expressions use Mathlib matrices.
-/

open Filter Real Matrix

noncomputable section

/-! ### Data model for the discrete-choice notebook (table1, Bruhin-Fehr-Schunk) -/

/-- One row of the choices dataset: the subject identifier `sid`, the binary
choice `y` (the column choice_x, equal to 1 when allocation X was chosen),
the four payoff columns, and the two indicator stacks
(columns s, r, q, v for each allocation). -/
structure Obs1 where
  sid : ℤ
  y : ℝ
  self_x : ℝ
  other_x : ℝ
  self_y : ℝ
  other_y : ℝ
  ind_x : Fin 4 → ℝ
  ind_y : Fin 4 → ℝ

/-- First four entries of the parameter vector: beta = v[0:-1]. -/
def beta1 (v : Fin 5 → ℝ) : Fin 4 → ℝ := fun i => v i.castSucc

/-- Choice sensitivity: sigma = np.exp(v[-1]). -/
def sigma1 (v : Fin 5 → ℝ) : ℝ := Real.exp (v 4)

/-- lli = indicators_x @ beta, one entry per observation. -/
def lli (v : Fin 5 → ℝ) (o : Obs1) : ℝ := ∑ i, o.ind_x i * beta1 v i

/-- rli = indicators_y @ beta. -/
def rli (v : Fin 5 → ℝ) (o : Obs1) : ℝ := ∑ i, o.ind_y i * beta1 v i

/-- uleft = sigma*((1-lli)*self_x + lli*other_x), from loglike_dummy. -/
def uleft (v : Fin 5 → ℝ) (o : Obs1) : ℝ :=
  sigma1 v * ((1 - lli v o) * o.self_x + lli v o * o.other_x)

/-- uright = sigma*((1-rli)*self_y + rli*other_y), from loglike_dummy. -/
def uright (v : Fin 5 → ℝ) (o : Obs1) : ℝ :=
  sigma1 v * ((1 - rli v o) * o.self_y + rli v o * o.other_y)

/-- One entry of the probs vector of loglike_dummy:
(exp(uleft)/(exp(uleft)+exp(uright)))**y * (exp(uright)/(exp(uleft)+exp(uright)))**(1-y).
The numpy power with a float exponent is embedded as the real power. -/
def probObs1 (v : Fin 5 → ℝ) (o : Obs1) : ℝ :=
  (Real.exp (uleft v o) / (Real.exp (uleft v o) + Real.exp (uright v o))) ^ o.y *
  (Real.exp (uright v o) / (Real.exp (uleft v o) + Real.exp (uright v o))) ^ (1 - o.y)

/-- The negative log-likelihood of the discrete-choice notebook:
nll = - np.sum(np.log(probs)).  There is no clamping step in this function. -/
def loglike_dummy (v : Fin 5 → ℝ) (obs : List Obs1) : ℝ :=
  -(obs.map (fun o => Real.log (probObs1 v o))).sum

/-! ### Specification-side definitions for the random-utility claim -/

/-- Modelled from the spec: the utility of allocation X as the claim writes it,
U = (1 - indicators.theta)*own_payoff + (indicators.theta)*other_payoff. -/
def specUX (v : Fin 5 → ℝ) (o : Obs1) : ℝ :=
  (1 - ∑ i, o.ind_x i * beta1 v i) * o.self_x + (∑ i, o.ind_x i * beta1 v i) * o.other_x

/-- Modelled from the spec: the utility of allocation Y as the claim writes it. -/
def specUY (v : Fin 5 → ℝ) (o : Obs1) : ℝ :=
  (1 - ∑ i, o.ind_y i * beta1 v i) * o.self_y + (∑ i, o.ind_y i * beta1 v i) * o.other_y

/-- The two-alternative softmax probability of choosing X,
exp(sigma UX)/(exp(sigma UX) + exp(sigma UY)). -/
def softmaxX (v : Fin 5 → ℝ) (o : Obs1) : ℝ :=
  Real.exp (uleft v o) / (Real.exp (uleft v o) + Real.exp (uright v o))

/-- The logistic function 1/(1 + exp(-z)). -/
def logistic (z : ℝ) : ℝ := 1 / (1 + Real.exp (-z))

/-! ### Helper lemmas about the softmax probability -/

theorem uleft_eq_sigma_specUX (v : Fin 5 → ℝ) (o : Obs1) :
    uleft v o = sigma1 v * specUX v o := rfl

theorem softmaxX_pos (v : Fin 5 → ℝ) (o : Obs1) : 0 < softmaxX v o := by
  unfold softmaxX
  positivity

theorem softmaxX_lt_one (v : Fin 5 → ℝ) (o : Obs1) : softmaxX v o < 1 := by
  unfold softmaxX
  rw [div_lt_one (by positivity)]
  have h := Real.exp_pos (uright v o)
  linarith

theorem softmaxX_compl (v : Fin 5 → ℝ) (o : Obs1) :
    Real.exp (uright v o) / (Real.exp (uleft v o) + Real.exp (uright v o)) =
      1 - softmaxX v o := by
  unfold softmaxX
  have h : Real.exp (uleft v o) + Real.exp (uright v o) ≠ 0 := by positivity
  field_simp

theorem softmaxX_eq_logistic (v : Fin 5 → ℝ) (o : Obs1) :
    softmaxX v o = logistic (uleft v o - uright v o) := by
  unfold softmaxX logistic
  have key : Real.exp (uleft v o) * Real.exp (-(uleft v o - uright v o)) =
      Real.exp (uright v o) := by
    rw [← Real.exp_add]
    congr 1
    ring
  rw [div_eq_div_iff (by positivity) (by positivity), mul_add, mul_one, key, one_mul]

theorem probObs1_eq_bernoulli (v : Fin 5 → ℝ) (o : Obs1) :
    probObs1 v o = softmaxX v o ^ o.y * (1 - softmaxX v o) ^ (1 - o.y) := by
  unfold probObs1
  rw [softmaxX_compl]
  rfl

/-- Claim C3: in the discrete-choice model the per-observation likelihood
computed by loglike_dummy is the Bernoulli mass, under the observed binary
choice, of the two-alternative softmax probability
exp(sigma UX)/(exp(sigma UX)+exp(sigma UY)), where each utility is the
linear-in-indicators form U = (1 - ind.theta)*own + (ind.theta)*other, and the
softmax probability equals the logistic function of the scaled utility
difference sigma (UX - UY). -/
theorem loglike_dummy_bernoulli_logistic (v : Fin 5 → ℝ) (o : Obs1) :
    (o.y = 1 → probObs1 v o = softmaxX v o) ∧
    (o.y = 0 → probObs1 v o = 1 - softmaxX v o) ∧
    softmaxX v o = logistic (sigma1 v * (specUX v o - specUY v o)) ∧
    uleft v o = sigma1 v * specUX v o ∧ uright v o = sigma1 v * specUY v o := by
  refine ⟨?_, ?_, ?_, rfl, rfl⟩
  · intro hy
    rw [probObs1_eq_bernoulli, hy]
    norm_num
  · intro hy
    rw [probObs1_eq_bernoulli, hy]
    norm_num
  · rw [softmaxX_eq_logistic]
    congr 1
    unfold uleft uright specUX specUY lli rli sigma1
    ring

/-- A concrete parameter vector used for witnesses. -/
def vW : Fin 5 → ℝ := fun _ => 0

/-- A concrete observation with choice y = 1 used for witnesses. -/
def oW1 : Obs1 :=
  { sid := 1, y := 1, self_x := 2, other_x := 3, self_y := 5, other_y := 7,
    ind_x := fun _ => 0, ind_y := fun _ => 0 }

theorem loglike_dummy_bernoulli_logistic_witness :
    probObs1 vW oW1 = softmaxX vW oW1 ∧
    softmaxX vW oW1 = logistic (sigma1 vW * (specUX vW oW1 - specUY vW oW1)) := by
  have h := loglike_dummy_bernoulli_logistic vW oW1
  exact ⟨h.1 rfl, h.2.2.1⟩

/-! ### Data model for the effort notebook (Augenblick-Rabin) -/

/-- The seven free parameters of the structural effort model, in the order
they are unpacked from the params vector of negloglike. -/
structure Params2 where
  beta : ℝ
  betahat : ℝ
  delta : ℝ
  gamma : ℝ
  phi : ℝ
  alpha : ℝ
  sigma : ℝ

/-- One row of the decisions dataset after the data-preparation cell: the
subject identifier wid, the model covariates, and the dummies pb,
ind_effort10 and ind_effort110 built from the raw columns. -/
structure Obs2 where
  wid : ℤ
  netdistance : ℝ
  wage : ℝ
  today : ℝ
  prediction : ℝ
  pb : ℝ
  effort : ℝ
  i10 : ℝ
  i110 : ℝ

/-- predchoice, the predicted optimal effort of negloglike:
((phi*(delta**netdistance)*(beta**today)*(betahat**prediction)*wage)**(1/(gamma-1)))-pb*alpha.
All numpy float powers are embedded as real powers. -/
def predchoice (p : Params2) (o : Obs2) : ℝ :=
  (p.phi * p.delta ^ o.netdistance * p.beta ^ o.today * p.betahat ^ o.prediction
      * o.wage) ^ (1 / (p.gamma - 1)) - o.pb * p.alpha

/-- The density of a normal distribution with mean mu and standard deviation
s, evaluated at x: the scipy norm.pdf(x, mu, s). -/
def normpdf (x mu s : ℝ) : ℝ :=
  Real.exp (-((x - mu) ^ 2 / (2 * s ^ 2))) / (s * Real.sqrt (2 * Real.pi))

/-- The standard normal cumulative distribution function, the scipy
norm.cdf with default location 0 and scale 1. -/
def normcdf (z : ℝ) : ℝ := ∫ t in Set.Iic z, normpdf t 0 1

/-- One entry of the prob vector of negloglike:
(1-ind_effort10-ind_effort110)*norm.pdf(effort, predchoice, sigma)
+ ind_effort10*(1-norm.cdf((predchoice-effort)/sigma))
+ ind_effort110*norm.cdf((predchoice-effort)/sigma). -/
def probObs2 (p : Params2) (o : Obs2) : ℝ :=
  (1 - o.i10 - o.i110) * normpdf o.effort (predchoice p o) p.sigma
    + o.i10 * (1 - normcdf ((predchoice p o - o.effort) / p.sigma))
    + o.i110 * normcdf ((predchoice p o - o.effort) / p.sigma)

/-- The clamping step of negloglike.  The source first collects index_p0,
the indexes with prob equal to 0, and index_p1, the indexes with prob equal
to 1 (both read from the unmodified vector), then overwrites the former with
1e-4 and the latter with 1 - 1e-4.  Since the two index sets are disjoint
and all other positions are untouched, this equals the pointwise rewrite
below. -/
def clampProbs (prob : List ℝ) : List ℝ :=
  prob.map fun q => if q = 0 then 1e-4 else if q = 1 then 1 - 1e-4 else q

/-- The negative log-likelihood of the effort notebook:
negll = - np.sum(np.log(prob)) applied after the clamping step. -/
def negloglike (p : Params2) (obs : List Obs2) : ℝ :=
  -((clampProbs (obs.map (probObs2 p))).map Real.log).sum

/-- The numpy logarithm valued in the extended reals: np.log returns minus
infinity at 0 (and is not finite on non-positive arguments), which real
Real.log hides by returning junk values; this version makes the divergence
observable. -/
def elog (x : ℝ) : EReal := if x ≤ 0 then ⊥ else ((Real.log x : ℝ) : EReal)

/-- The negative log-likelihood of the effort notebook with the numpy
log semantics made explicit: a value of top records that np.log produced
minus infinity on some clamped probability. -/
def negloglikeE (p : Params2) (obs : List Obs2) : EReal :=
  -((clampProbs (obs.map (probObs2 p))).map elog).sum

/-- Claim C10: only probability entries exactly equal to 0 (replaced by
1e-4) or exactly equal to 1 (replaced by 1 - 1e-4) are modified by the
clamping step of negloglike; every other entry is unchanged, and on a
vector with no entry exactly 0 or 1 the clamping step is the identity. -/
theorem clampProbs_frame (prob : List ℝ) :
    (clampProbs prob).length = prob.length ∧
    (∀ (i : ℕ) (h1 : i < prob.length) (h2 : i < (clampProbs prob).length),
      (clampProbs prob)[i] =
        if prob[i] = 0 then 1e-4 else if prob[i] = 1 then 1 - 1e-4 else prob[i]) ∧
    ((∀ q ∈ prob, q ≠ 0 ∧ q ≠ 1) → clampProbs prob = prob) := by
  refine ⟨List.length_map _ _, ?_, ?_⟩
  · intro i h1 h2
    simp [clampProbs]
  · intro h
    have : ∀ q ∈ prob, (if q = 0 then (1e-4 : ℝ) else if q = 1 then 1 - 1e-4 else q) = q := by
      intro q hq
      rw [if_neg (h q hq).1, if_neg (h q hq).2]
    calc clampProbs prob = prob.map id := List.map_congr_left this
    _ = prob := List.map_id prob

theorem clampProbs_frame_witness :
    (clampProbs [(2⁻¹ : ℝ)]).length = 1 ∧ clampProbs [(2⁻¹ : ℝ)] = [2⁻¹] :=
  ⟨(clampProbs_frame [(2⁻¹ : ℝ)]).1,
   (clampProbs_frame [(2⁻¹ : ℝ)]).2.2 (by norm_num)⟩

/-- Claim C4: for every parameter vector and observation whose censoring
dummies are the indicators of effort equal to 10 and of effort equal to 110
(as the data-preparation cell constructs them), the per-observation
likelihood of negloglike is the Gaussian density of the observed effort
around the predicted effort with standard deviation sigma, except that at
the lower bound the density is replaced by the upper tail mass and at the
upper bound by the lower tail mass; and the predicted effort is the
closed-form power function of the claim. -/
theorem negloglike_tobit_piecewise (p : Params2) (o : Obs2)
    (h10 : o.i10 = if o.effort = 10 then 1 else 0)
    (h110 : o.i110 = if o.effort = 110 then 1 else 0) :
    probObs2 p o =
      (if o.effort = 10 then 1 - normcdf ((predchoice p o - 10) / p.sigma)
       else if o.effort = 110 then normcdf ((predchoice p o - 110) / p.sigma)
       else normpdf o.effort (predchoice p o) p.sigma) ∧
    predchoice p o =
      (p.phi * p.delta ^ o.netdistance * p.beta ^ o.today * p.betahat ^ o.prediction
        * o.wage) ^ (1 / (p.gamma - 1)) - o.pb * p.alpha := by
  refine ⟨?_, rfl⟩
  by_cases he10 : o.effort = 10
  · have e110 : o.i110 = 0 := by rw [h110, if_neg (by rw [he10]; norm_num)]
    rw [if_pos he10]
    unfold probObs2
    rw [h10, if_pos he10, e110, he10]
    ring
  · by_cases he110 : o.effort = 110
    · have e10 : o.i10 = 0 := by rw [h10, if_neg he10]
      rw [if_neg he10, if_pos he110]
      unfold probObs2
      rw [h110, if_pos he110, e10, he110]
      ring
    · rw [if_neg he10, if_neg he110]
      unfold probObs2
      rw [h10, if_neg he10, h110, if_neg he110]
      ring

/-- Concrete parameters for the negative-value counterexample: beta, betahat
and delta equal to 1, cost curvature gamma equal to 2, cost slope phi equal
to 20, projection bias alpha equal to 0, and a small error scale sigma equal
to 1/100. -/
def pC : Params2 :=
  { beta := 1, betahat := 1, delta := 1, gamma := 2, phi := 20, alpha := 0,
    sigma := 1 / 100 }

/-- A well-formed interior observation: effort 20 (strictly between the
censoring bounds 10 and 110, so both dummies are 0), wage 1, all time
distances and dummies 0. -/
def oC : Obs2 :=
  { wid := 1, netdistance := 0, wage := 1, today := 0, prediction := 0,
    pb := 0, effort := 20, i10 := 0, i110 := 0 }

theorem predchoice_pC_oC : predchoice pC oC = 20 := by
  unfold predchoice pC oC
  norm_num

theorem probObs2_pC_oC : probObs2 pC oC = 100 / Real.sqrt (2 * Real.pi) := by
  unfold probObs2
  rw [predchoice_pC_oC]
  show (1 - (0:ℝ) - 0) * normpdf 20 20 (1/100) + 0 * _ + 0 * _ = _
  unfold normpdf
  norm_num
  ring

theorem negloglike_tobit_piecewise_witness :
    ((0:ℝ) = if (20:ℝ) = 10 then 1 else 0) ∧
    probObs2 pC oC = normpdf oC.effort (predchoice pC oC) pC.sigma := by
  have h := negloglike_tobit_piecewise pC oC (by norm_num [oC]) (by norm_num [oC])
  refine ⟨by norm_num, ?_⟩
  rw [h.1]
  norm_num [oC]

/-! ### Finiteness and sign of the two objectives -/

theorem sqrt_two_pi_pos : 0 < Real.sqrt (2 * Real.pi) :=
  Real.sqrt_pos.mpr (by positivity)

theorem sqrt_two_pi_lt_hundred : Real.sqrt (2 * Real.pi) < 100 := by
  rw [show (100:ℝ) = Real.sqrt (100 ^ 2) by rw [Real.sqrt_sq]; norm_num]
  apply Real.sqrt_lt_sqrt (by positivity)
  nlinarith [Real.pi_lt_d2]

theorem one_lt_probObs2_pC_oC : 1 < probObs2 pC oC := by
  rw [probObs2_pC_oC, lt_div_iff₀ sqrt_two_pi_pos, one_mul]
  exact sqrt_two_pi_lt_hundred

/-- Counterexample to claim C1: at the valid parameter vector pC (all
discounting parameters 1, gamma 2, phi 20, sigma 1/100 positive) and the
well-formed one-observation batch oC (an interior effort of 20), the
negative log-likelihood of the effort notebook is strictly negative, because
the Gaussian density at a small sigma exceeds 1; the claim asserts the
returned scalar is always non-negative. -/
theorem negloglike_neg_at_small_sigma : negloglike pC [oC] < 0 := by
  have hq1 : (1:ℝ) < probObs2 pC oC := one_lt_probObs2_pC_oC
  have hclamp : clampProbs [probObs2 pC oC] = [probObs2 pC oC] := by
    unfold clampProbs
    rw [List.map_singleton, if_neg (by linarith), if_neg (by linarith)]
  unfold negloglike
  rw [List.map_singleton, hclamp, List.map_singleton, List.sum_singleton]
  have := Real.log_pos hq1
  linarith

theorem probObs1_mem_Ioo (v : Fin 5 → ℝ) (o : Obs1) (hy : o.y = 0 ∨ o.y = 1) :
    0 < probObs1 v o ∧ probObs1 v o < 1 := by
  rcases hy with h | h
  · rw [probObs1_eq_bernoulli, h]
    norm_num
    have h1 := softmaxX_pos v o
    have h2 := softmaxX_lt_one v o
    constructor <;> linarith
  · rw [probObs1_eq_bernoulli, h]
    norm_num
    exact ⟨softmaxX_pos v o, softmaxX_lt_one v o⟩

theorem list_sum_nonpos {l : List ℝ} (h : ∀ x ∈ l, x ≤ 0) : l.sum ≤ 0 := by
  induction l with
  | nil => simp
  | cons a t ih =>
    rw [List.sum_cons]
    have ha := h a (List.mem_cons_self a t)
    have ht := ih fun x hx => h x (List.mem_cons_of_mem a hx)
    linarith

theorem clampProbs_pos {l : List ℝ} (h : ∀ x ∈ l, 0 ≤ x) :
    ∀ q ∈ clampProbs l, 0 < q := by
  intro q hq
  unfold clampProbs at hq
  rw [List.mem_map] at hq
  obtain ⟨x, hx, rfl⟩ := hq
  by_cases h0 : x = 0
  · rw [if_pos h0]; norm_num
  · rw [if_neg h0]
    by_cases h1 : x = 1
    · rw [if_pos h1]; norm_num
    · rw [if_neg h1]
      exact lt_of_le_of_ne (h x hx) (Ne.symm h0)

theorem elog_sum_coe {l : List ℝ} (h : ∀ x ∈ l, 0 < x) :
    (l.map elog).sum = (((l.map Real.log).sum : ℝ) : EReal) := by
  induction l with
  | nil => simp
  | cons a t ih =>
    rw [List.map_cons, List.map_cons, List.sum_cons, List.sum_cons]
    have ha : elog a = ((Real.log a : ℝ) : EReal) := by
      unfold elog
      rw [if_neg (not_le.mpr (h a (List.mem_cons_self a t)))]
    rw [ha, ih fun x hx => h x (List.mem_cons_of_mem a hx), ← EReal.coe_add]

/-- Claim C1 as amended: in exact arithmetic loglike_dummy returns a
non-negative value on every batch of binary choices (it contains no clamping
step, and relies on exact softmax probabilities lying strictly between 0 and
1); negloglike clamps probability entries equal to 0 or 1 to 1e-4 and
1 - 1e-4 before the logarithm, so on every batch of non-negative
probabilities all clamped entries are strictly positive and the objective is
finite, that is, the extended-real evaluation coincides with the real one;
the value of negloglike, however, need not be non-negative. -/
theorem loglike_clamping_amended (v : Fin 5 → ℝ) (obs1 : List Obs1)
    (p : Params2) (obs2 : List Obs2)
    (hy : ∀ o ∈ obs1, o.y = 0 ∨ o.y = 1)
    (hp : ∀ o ∈ obs2, 0 ≤ probObs2 p o) :
    0 ≤ loglike_dummy v obs1 ∧
    (∀ q ∈ clampProbs (obs2.map (probObs2 p)), 0 < q) ∧
    negloglikeE p obs2 = ((negloglike p obs2 : ℝ) : EReal) := by
  have hp' : ∀ x ∈ obs2.map (probObs2 p), 0 ≤ x := by
    intro x hx
    rw [List.mem_map] at hx
    obtain ⟨o, ho, rfl⟩ := hx
    exact hp o ho
  have hpos := clampProbs_pos hp'
  refine ⟨?_, hpos, ?_⟩
  · unfold loglike_dummy
    rw [neg_nonneg]
    apply list_sum_nonpos
    intro x hx
    rw [List.mem_map] at hx
    obtain ⟨o, ho, rfl⟩ := hx
    have h := probObs1_mem_Ioo v o (hy o ho)
    exact Real.log_nonpos h.1.le h.2.le
  · unfold negloglikeE negloglike
    rw [elog_sum_coe hpos, ← EReal.coe_neg]

theorem loglike_clamping_amended_witness :
    0 ≤ loglike_dummy vW [oW1] ∧
    negloglikeE pC [oC] = ((negloglike pC [oC] : ℝ) : EReal) := by
  have h := loglike_clamping_amended vW [oW1] pC [oC]
    (by intro o ho; rw [List.mem_singleton] at ho; subst ho; exact Or.inr rfl)
    (by intro o ho; rw [List.mem_singleton] at ho; subst ho
        rw [probObs2_pC_oC]; positivity)
  exact ⟨h.1, h.2.2⟩

/-! ### Delta-method standard error for the transformed scale parameter -/

/-- The reported standard error of sigma in the discrete-choice notebook:
np.sqrt(np.exp(res_s1[-1])**2*se_s1[-1]**2), where res_s1[-1] is the
estimate of log sigma and se_s1[-1] its untransformed standard error. -/
def se_sigma (vhat se : ℝ) : ℝ := Real.sqrt (Real.exp vhat ^ 2 * se ^ 2)

/-- Claim C6: the delta-method transform of the standard error of the
log-scale choice-sensitivity parameter: for every estimate vhat and every
non-negative untransformed standard error se, the reported value
sqrt(exp(vhat)^2 * se^2) equals exp(vhat) * se, the point estimate of sigma
times the untransformed standard error. -/
theorem delta_method_se (vhat se : ℝ) (hse : 0 ≤ se) :
    se_sigma vhat se = Real.exp vhat * se := by
  unfold se_sigma
  rw [← mul_pow, Real.sqrt_sq (by positivity)]

theorem delta_method_se_witness :
    (0 ≤ (2:ℝ)) ∧ se_sigma 0 2 = Real.exp 0 * 2 :=
  ⟨by norm_num, delta_method_se 0 2 (by norm_num)⟩

/-! ### The cluster-sum-of-gradients outer-product matrix -/

/-- Sum of a list of gradient rows, component by component:
np.sum(gradi[sel,:], axis=0). -/
def vsum {n : ℕ} (l : List (Fin n → ℝ)) : Fin n → ℝ := fun j => (l.map (fun g => g j)).sum

/-- The outer product np.outer(g, h) of two vectors. -/
def outer {n : ℕ} (g h : Fin n → ℝ) : Matrix (Fin n) (Fin n) ℝ :=
  Matrix.of fun i j => g i * h j

/-- The accumulation loop shared by congradloglike and gradcontr: for every
distinct cluster identifier, sum the gradient rows of the observations in
that cluster and add the outer product of the summed row with itself.
The source enumerates np.unique of the identifiers; dedup enumerates the
same distinct values (in first-occurrence order, which leaves the sum
unchanged). -/
def clusterOuterSum {n : ℕ} (clusters : List ℤ) (gradi : List (Fin n → ℝ)) :
    Matrix (Fin n) (Fin n) ℝ :=
  (clusters.dedup.map fun c =>
    let gradsel := vsum (((clusters.zip gradi).filter fun q => q.1 = c).map Prod.snd)
    outer gradsel gradsel).sum

/-- The raised-to-indicator sign factor (-1)**(1-y) of the analytic
gradient, with the numpy float power embedded as the real power. -/
def negpow (t : ℝ) : ℝ := (-1 : ℝ) ^ t

/-- One row of bgradi, the analytic gradient of the negative log-likelihood
of a single observation with respect to the four preference parameters,
exactly as congradloglike computes it. -/
def bgrad (v : Fin 5 → ℝ) (o : Obs1) (j : Fin 4) : ℝ :=
  negpow (1 - o.y) *
    ((sigma1 v * o.ind_x j * (o.other_x - o.self_x) * Real.exp (uleft v o) *
        (Real.exp (uleft v o) + Real.exp (uright v o)) -
      Real.exp (uleft v o) *
        (sigma1 v * o.ind_x j * (o.other_x - o.self_x) * Real.exp (uleft v o) +
         sigma1 v * o.ind_y j * ((o.other_y - o.self_y) * Real.exp (uright v o)))) /
      (Real.exp (uleft v o) + Real.exp (uright v o)) ^ 2) / probObs1 v o

/-- ggradi, the analytic derivative with respect to the last
parameter, exactly as congradloglike computes it from up2 and wp2. -/
def ggrad (v : Fin 5 → ℝ) (o : Obs1) : ℝ :=
  negpow (1 - o.y) *
    ((uleft v o * Real.exp (uleft v o) *
        (Real.exp (uleft v o) + Real.exp (uright v o)) -
      Real.exp (uleft v o) *
        (uleft v o * Real.exp (uleft v o) + uright v o * Real.exp (uright v o))) /
      (Real.exp (uleft v o) + Real.exp (uright v o)) ^ 2 / probObs1 v o)

/-- gradi = np.column_stack((bgradi, ggradi)): a five-column gradient row. -/
def gradObs1 (v : Fin 5 → ℝ) (o : Obs1) : Fin 5 → ℝ :=
  Fin.lastCases (ggrad v o) (bgrad v o)

/-- congradloglike: the matrix of cluster gradient contributions of the
discrete-choice notebook, built from the analytic per-observation gradient
rows and the sid column. -/
def congradloglike (v : Fin 5 → ℝ) (obs : List Obs1) : Matrix (Fin 5) (Fin 5) ℝ :=
  clusterOuterSum (obs.map Obs1.sid) (obs.map (gradObs1 v))

/-- gradcontr: the matrix of cluster gradient contributions of the effort
notebook.  The per-observation gradient rows are produced by the autograd
differentiator applied to negloglike on a single-row batch; that library
differentiator is outside the source, so the row function is a parameter
here, and the claim holds for every choice of it. -/
def gradcontr (gradfun : Params2 → Obs2 → Fin 7 → ℝ) (p : Params2)
    (obs : List Obs2) : Matrix (Fin 7) (Fin 7) ℝ :=
  clusterOuterSum (obs.map Obs2.wid) (obs.map (gradfun p))

theorem list_sum_transpose {n : ℕ} (l : List (Matrix (Fin n) (Fin n) ℝ)) :
    l.sumᵀ = (l.map Matrix.transpose).sum := by
  induction l with
  | nil => simp
  | cons a t ih =>
    rw [List.sum_cons, Matrix.transpose_add, ih, List.map_cons, List.sum_cons]

theorem outer_self_transpose {n : ℕ} (g : Fin n → ℝ) : (outer g g)ᵀ = outer g g := by
  ext i j
  simp only [Matrix.transpose_apply, outer, Matrix.of_apply]
  ring

theorem clusterOuterSum_transpose {n : ℕ} (clusters : List ℤ)
    (gradi : List (Fin n → ℝ)) :
    (clusterOuterSum clusters gradi)ᵀ = clusterOuterSum clusters gradi := by
  unfold clusterOuterSum
  rw [list_sum_transpose, List.map_map]
  congr 1
  apply List.map_congr_left
  intro c _
  simp only [Function.comp_apply]
  exact outer_self_transpose _

/-- Claim C5: for every dataset, cluster assignment and parameter vector,
the gradient-contribution matrix G returned by congradloglike, and the one
returned by gradcontr for any per-observation gradient function, is
symmetric: it equals its own transpose. -/
theorem gradient_outer_matrix_symm (v : Fin 5 → ℝ) (obs : List Obs1)
    (gradfun : Params2 → Obs2 → Fin 7 → ℝ) (p : Params2) (obs2 : List Obs2) :
    (congradloglike v obs)ᵀ = congradloglike v obs ∧
    (gradcontr gradfun p obs2)ᵀ = gradcontr gradfun p obs2 :=
  ⟨clusterOuterSum_transpose _ _, clusterOuterSum_transpose _ _⟩

/-! ### The cluster-robust sandwich variance estimator -/

/-- The number of distinct cluster identifiers, len(np.unique(ids)). -/
def numClusters (ids : List ℤ) : ℕ := ids.dedup.length

/-- The degrees-of-freedom and cluster adjustment
adj = (N-1)/(N-K) * (J/(J-1)), with the Python integer divisions embedded as
real divisions. -/
def adjFactor (N K J : ℕ) : ℝ :=
  ((N:ℝ) - 1) / ((N:ℝ) - (K:ℝ)) * ((J:ℝ) / ((J:ℝ) - 1))

/-- varcov_s1 = adj * (inv_hess @ grad_contribution @ inv_hess) in the
discrete-choice notebook, where adj is computed from the row count of the
dataset, the five optimized parameters and the distinct sid values, and
inv_hess is the inverse of the Hessian of the negative log-likelihood at the
optimum (the Hessian itself is produced by the numdifftools numerical
differentiator, outside the source, so it enters as a parameter). -/
def varcov_s1 (H G : Matrix (Fin 5) (Fin 5) ℝ) (obs : List Obs1) :
    Matrix (Fin 5) (Fin 5) ℝ :=
  adjFactor obs.length 5 (numClusters (obs.map Obs1.sid)) • (H⁻¹ * G * H⁻¹)

/-- se_s1 = np.sqrt(np.diag(varcov_s1)). -/
def se_s1_diag (H G : Matrix (Fin 5) (Fin 5) ℝ) (obs : List Obs1) : Fin 5 → ℝ :=
  fun i => Real.sqrt (varcov_s1 H G obs i i)

/-- varcov_estimates = adj * (hess_inv @ grad_contribution @ hess_inv) in the
effort notebook, with adj computed from the row count, the seven optimized
parameters and the distinct wid values. -/
def varcov_estimates (H G : Matrix (Fin 7) (Fin 7) ℝ) (obs : List Obs2) :
    Matrix (Fin 7) (Fin 7) ℝ :=
  adjFactor obs.length 7 (numClusters (obs.map Obs2.wid)) • (H⁻¹ * G * H⁻¹)

/-- se_cluster = np.sqrt(np.diag(varcov_estimates)). -/
def se_cluster (H G : Matrix (Fin 7) (Fin 7) ℝ) (obs : List Obs2) : Fin 7 → ℝ :=
  fun i => Real.sqrt (varcov_estimates H G obs i i)

/-- Claim C2: in both notebooks the variance-covariance matrix of the
estimates equals Adj times H inverse times G times H inverse, where
Adj = (N-1)/(N-K) * J/(J-1) with N the observation count, K the parameter
count (5 and 7, the lengths of the optimized vectors) and J the number of
distinct cluster identifiers; and the standard errors are the square roots
of the diagonal of this matrix. -/
theorem sandwich_varcov_spec (H G : Matrix (Fin 5) (Fin 5) ℝ) (obs : List Obs1)
    (H2 G2 : Matrix (Fin 7) (Fin 7) ℝ) (obs2 : List Obs2) :
    varcov_s1 H G obs =
      (((obs.length : ℝ) - 1) / ((obs.length : ℝ) - 5) *
        ((numClusters (obs.map Obs1.sid) : ℝ) /
          ((numClusters (obs.map Obs1.sid) : ℝ) - 1))) • (H⁻¹ * G * H⁻¹) ∧
    (∀ i, se_s1_diag H G obs i = Real.sqrt (varcov_s1 H G obs i i)) ∧
    varcov_estimates H2 G2 obs2 =
      (((obs2.length : ℝ) - 1) / ((obs2.length : ℝ) - 7) *
        ((numClusters (obs2.map Obs2.wid) : ℝ) /
          ((numClusters (obs2.map Obs2.wid) : ℝ) - 1))) • (H2⁻¹ * G2 * H2⁻¹) ∧
    (∀ i, se_cluster H2 G2 obs2 i = Real.sqrt (varcov_estimates H2 G2 obs2 i i)) := by
  refine ⟨?_, fun i => rfl, ?_, fun i => rfl⟩
  · unfold varcov_s1 adjFactor
    norm_num
  · unfold varcov_estimates adjFactor
    norm_num

/-! ### The degrees-of-freedom adjustment in the limit and at one cluster -/

/-- Python float division of two numbers, which raises a ZeroDivisionError
when the denominator is zero; the error is modelled by none. -/
def pydiv (a b : ℝ) : Option ℝ := if b = 0 then none else some (a / b)

/-- The adjustment computed with the Python division semantics: the source
computes it unconditionally, with no guard on the number of clusters. -/
def adjPy (N K J : ℕ) : Option ℝ :=
  (pydiv ((N:ℝ) - 1) ((N:ℝ) - (K:ℝ))).bind fun a =>
    (pydiv (J:ℝ) ((J:ℝ) - 1)).map fun b => a * b

theorem ratio_tendsto_one (K : ℕ) :
    Tendsto (fun x : ℝ => (x - 1) / (x - (K:ℝ))) atTop (nhds 1) := by
  have hinv : Tendsto (fun x : ℝ => x⁻¹) atTop (nhds (0:ℝ)) := tendsto_inv_atTop_zero
  have hnum : Tendsto (fun x : ℝ => 1 - x⁻¹) atTop (nhds 1) := by
    simpa using tendsto_const_nhds.sub hinv
  have hden : Tendsto (fun x : ℝ => 1 - (K:ℝ) * x⁻¹) atTop (nhds 1) := by
    simpa using tendsto_const_nhds.sub (hinv.const_mul (K:ℝ))
  have hdiv := hnum.div hden one_ne_zero
  rw [div_one] at hdiv
  apply hdiv.congr'
  filter_upwards [eventually_ne_atTop (0:ℝ)] with x hx
  show (1 - x⁻¹) / (1 - (K:ℝ) * x⁻¹) = (x - 1) / (x - (K:ℝ))
  rw [show (1 : ℝ) - x⁻¹ = (x - 1) / x by field_simp,
      show (1 : ℝ) - (K:ℝ) * x⁻¹ = (x - (K:ℝ)) / x by field_simp]
  rcases eq_or_ne (x - (K:ℝ)) 0 with h0 | h0
  · rw [h0]
    simp
  · rw [div_div_div_eq, mul_comm x (x - (K:ℝ)), mul_div_mul_right _ _ hx]

theorem adjFactor_tendsto (K J : ℕ) :
    Tendsto (fun N : ℕ => adjFactor N K J) atTop
      (nhds ((J:ℝ) / ((J:ℝ) - 1))) := by
  have hcomp : Tendsto (fun N : ℕ => ((N:ℝ) - 1) / ((N:ℝ) - (K:ℝ))) atTop (nhds 1) :=
    (ratio_tendsto_one K).comp tendsto_natCast_atTop_atTop
  have := hcomp.mul_const ((J:ℝ) / ((J:ℝ) - 1))
  simpa [adjFactor] using this

/-- Counterexample to claim C7: with the cluster count held fixed at J = 2
and K = 5 parameters, the adjustment does not tend to 1 as the observation
count tends to infinity (its limit is J/(J-1) = 2). -/
theorem adj_limit_not_one :
    ¬ Tendsto (fun N : ℕ => adjFactor N 5 2) atTop (nhds 1) := by
  intro hcontra
  have h2 : Tendsto (fun N : ℕ => adjFactor N 5 2) atTop (nhds 2) := by
    have h := adjFactor_tendsto 5 2
    norm_num at h
    exact h
  have h12 : (1:ℝ) = 2 := tendsto_nhds_unique hcontra h2
  norm_num at h12

/-- Claim C7 as amended: as the observation count N tends to infinity with
the cluster count J and the parameter count K held fixed, the adjustment
Adj = (N-1)/(N-K) * J/(J-1) tends to J/(J-1), not to 1; at J = 1 the Python
evaluation is a division by zero, and the implementation computes the
adjustment unconditionally, with no single-cluster guard: for every J of at
least 2 (and N different from K) the Python evaluation returns the real
value, and at J = 1 it raises. -/
theorem adj_limit_amended (K J : ℕ) (hJ : 2 ≤ J) :
    Tendsto (fun N : ℕ => adjFactor N K J) atTop
      (nhds ((J:ℝ) / ((J:ℝ) - 1))) ∧
    (∀ N : ℕ, adjPy N K 1 = none) ∧
    (∀ N : ℕ, (N:ℝ) - (K:ℝ) ≠ 0 → adjPy N K J = some (adjFactor N K J)) := by
  refine ⟨adjFactor_tendsto K J, ?_, ?_⟩
  · intro N
    unfold adjPy pydiv
    rcases eq_or_ne ((N:ℝ) - (K:ℝ)) 0 with h | h
    · rw [if_pos h]
      rfl
    · rw [if_neg h]
      norm_num
  · intro N hNK
    have hJ1 : ((J:ℝ) - 1) ≠ 0 := by
      have h2 : (2:ℝ) ≤ (J:ℝ) := by exact_mod_cast hJ
      linarith
    unfold adjPy pydiv adjFactor
    rw [if_neg hNK, if_neg hJ1]
    rfl

theorem adj_limit_amended_witness :
    (2 ≤ 2) ∧ adjPy 10 5 1 = none :=
  ⟨le_refl 2, (adj_limit_amended 5 2 (le_refl 2)).2.1 10⟩

/-! ### The hypothesis-testing stage -/

/-- zvalues_s1 = np.array(results_s1)/np.array(se_s1), elementwise. -/
def zvaluesS1 (results se : List ℝ) : List ℝ :=
  List.zipWith (fun r s => r / s) results se

/-- pvalues = 2*(1-norm.cdf(np.abs(zvalues),0,1)), elementwise. -/
def pvaluesOf (zv : List ℝ) : List ℝ := zv.map fun z => 2 * (1 - normcdf |z|)

/-- zvalues_1 = (np.array(res[0:3])-1)/np.array(se_cluster[0:3]) in the
effort notebook: the reference value is 1 for beta, betahat and delta. -/
def zvalues1 (res se : List ℝ) : List ℝ :=
  List.zipWith (fun r s => (r - 1) / s) (res.take 3) (se.take 3)

/-- var_s1 = np.array(se_s1)**2, elementwise. -/
def varOf (se : List ℝ) : List ℝ := se.map fun s => s ^ 2

/-- zvalues_s1s2 = np.abs(results_s1-results_s2)/np.sqrt(var_s1+var_s2),
elementwise: the statistic comparing the two session estimates. -/
def zvaluesS1S2 (r1 r2 se1 se2 : List ℝ) : List ℝ :=
  List.zipWith (fun d sv => d / sv)
    (List.zipWith (fun a b => |a - b|) r1 r2)
    ((List.zipWith (fun a b => a + b) (varOf se1) (varOf se2)).map Real.sqrt)

theorem map_zipWith_comp {α β γ δ : Type} (g : γ → δ) (f : α → β → γ)
    (l1 : List α) (l2 : List β) :
    (List.zipWith f l1 l2).map g = List.zipWith (fun a b => g (f a b)) l1 l2 := by
  induction l1 generalizing l2 with
  | nil => simp
  | cons a t ih => cases l2 <;> simp [ih]

theorem zipWith_map_right_comp {α β γ δ : Type} (f : α → γ → δ) (g : β → γ)
    (l1 : List α) (l2 : List β) :
    List.zipWith f l1 (l2.map g) = List.zipWith (fun a b => f a (g b)) l1 l2 := by
  induction l1 generalizing l2 with
  | nil => simp
  | cons a t ih => cases l2 <;> simp [ih]

theorem zipWith_map_both {α β γ δ ε : Type} (f : γ → δ → ε) (g : α → γ)
    (h : β → δ) (l1 : List α) (l2 : List β) :
    List.zipWith f (l1.map g) (l2.map h) =
      List.zipWith (fun a b => f (g a) (h b)) l1 l2 := by
  induction l1 generalizing l2 with
  | nil => simp
  | cons a t ih => cases l2 <;> simp [ih]

/-- Claim C8: the hypothesis-testing stage computes the two-sided p-value as
2*(1 - Phi(|z|)) with z = (estimate - reference)/se, with reference 0 for
the session parameters and reference 1 for beta, betahat and delta in the
effort notebook; and the statistic comparing the two session estimates is
the absolute difference of the estimates over the square root of the sum of
the two variances (the squared standard errors of the two independently
estimated sessions). -/
theorem ztest_pvalue_spec (results se r1 r2 se1 se2 : List ℝ) :
    pvaluesOf (zvaluesS1 results se) =
      List.zipWith (fun e s => 2 * (1 - normcdf |(e - 0) / s|)) results se ∧
    pvaluesOf (zvalues1 results se) =
      List.zipWith (fun e s => 2 * (1 - normcdf |(e - 1) / s|))
        (results.take 3) (se.take 3) ∧
    zvaluesS1S2 r1 r2 se1 se2 =
      List.zipWith (fun d s2 => d / Real.sqrt s2)
        (List.zipWith (fun a b => |a - b|) r1 r2)
        (List.zipWith (fun a b => a ^ 2 + b ^ 2) se1 se2) := by
  refine ⟨?_, ?_, ?_⟩
  · unfold pvaluesOf zvaluesS1
    rw [map_zipWith_comp]
    simp [sub_zero]
  · unfold pvaluesOf zvalues1
    rw [map_zipWith_comp]
  · unfold zvaluesS1S2 varOf
    rw [zipWith_map_both, zipWith_map_right_comp]

/-! ### The optimizer result and its convergence flag -/

/-- The fields of the scipy OptimizeResult that the notebooks touch: the
solution vector x, the attained objective value (the field named fun in
scipy), and the convergence flag success. -/
structure OptResult (n : ℕ) where
  x : Fin n → ℝ
  fval : ℝ
  success : Bool

/-- res = sol.x: the returned vector is taken as the estimate directly. -/
def acceptedEstimate {n : ℕ} (sol : OptResult n) : Fin n → ℝ := sol.x

/-- Everything the notebook derives from the optimizer result: the estimate
vector res = sol.x feeding the results table, and the printed log-likelihood
-sol.fun.  The success flag is never read. -/
def reportedOutput {n : ℕ} (sol : OptResult n) : (Fin n → ℝ) × ℝ :=
  (sol.x, -sol.fval)

/-- Counterexample to claim C9: at the concrete optimizer result with
solution vector zero and objective zero, everything the notebook reports is
identical whether the convergence flag is false (for example after stopping
at the Nelder-Mead iteration cap of 1500) or true, and the returned vector
is accepted as the estimate unconditionally.  Non-convergence is therefore
not surfaced to the operator. -/
theorem convergence_flag_ignored_cex :
    reportedOutput (⟨fun _ => 0, 0, false⟩ : OptResult 7) =
      reportedOutput (⟨fun _ => 0, 0, true⟩ : OptResult 7) ∧
    acceptedEstimate (⟨fun _ => 0, 0, false⟩ : OptResult 7) = fun _ => (0:ℝ) :=
  ⟨rfl, rfl⟩

/-- Claim C9 as amended: the notebooks bind the full optimizer result to
sol but consume only sol.x and sol.fun; the convergence flag is never
checked, so the reported output is unchanged by it and the returned vector
is always accepted as the estimate. -/
theorem convergence_flag_ignored (n : ℕ) (x : Fin n → ℝ) (f : ℝ) (b : Bool) :
    reportedOutput (⟨x, f, b⟩ : OptResult n) =
      reportedOutput (⟨x, f, true⟩ : OptResult n) ∧
    acceptedEstimate (⟨x, f, b⟩ : OptResult n) = x :=
  ⟨rfl, rfl⟩

end
